import Mathlib

/-!
Verification of the protein-analyzer core: a shallow embedding of the
sequence normalizer, the composition analyzer, the embedding feature
extractor and the rule-based classifier, together with theorems settling
the behavioural claims about them.

Strings are modelled as `List Char`.  JavaScript floating-point numbers are
modelled as exact rationals (`ℚ`) in the computable sequence/classifier
pipeline and as reals (`ℝ`) in the embedding module, where square roots
appear.  Fallible code (`cosineSimilarity`) returns `Except`.
-/

namespace PlantAnalyzer

/-! ### Sequence normalizer (source: unnamed part_001) -/

/-- The ASCII characters matched by the JavaScript regex class `\s`. -/
def jsWhitespace : List Char := [' ', '\t', '\n', '\r', '\x0b', '\x0c']

/-- Value of the method chain
`input.toUpperCase().replace(/\s+/g,"").replace(/[0-9]/g,"").replace(/[\n\r]/g,"")`
that `cleanSequence` feeds to its `.match` test.  Each `replace` deletes the
matched characters. -/
def upperStripped (s : List Char) : List Char :=
  (((s.map Char.toUpper).filter fun c => !decide (c ∈ jsWhitespace)).filter
      fun c => !c.isDigit).filter fun c => !decide (c = '\n' ∨ c = '\r')

/-- Result of testing `/^>.*$/m` against `upperStripped s`: all newline
characters have been stripped, so the multiline anchor can only match at the
start, i.e. exactly when the stripped string begins with `'>'`. -/
def matchesFastaHeader (s : List Char) : Bool :=
  match upperStripped s with
  | '>' :: _ => true
  | _ => false

/-- Model of `cleanSequence`.  In the source the whole uppercase/strip chain is
consumed by the conditional test: the branches of the conditional return the
ORIGINAL argument — either split on `'\n'` with the first line dropped and the
rest joined, or completely unchanged. -/
def cleanSequence (s : List Char) : List Char :=
  if matchesFastaHeader s then ((s.splitOn '\n').drop 1).flatten else s

/-- The character class of the validation regex `/^[ACDEFGHIKLMNPQRSTVWY*-]+$/`. -/
def validAminoChars : List Char :=
  ['A', 'C', 'D', 'E', 'F', 'G', 'H', 'I', 'K', 'L', 'M', 'N', 'P', 'Q', 'R',
   'S', 'T', 'V', 'W', 'Y', '*', '-']

/-- Model of `validateSequence`: uppercase, strip `\s`, then require the regex
test (every character allowed, at least one character) and nonemptiness. -/
def validateSequence (s : List Char) : Bool :=
  let cleaned := (s.map Char.toUpper).filter fun c => !decide (c ∈ jsWhitespace)
  (cleaned.all fun c => decide (c ∈ validAminoChars)) && decide (cleaned ≠ [])

/-! ### Composition analyzer (source: unnamed part_001) -/

/-- First-occurrence deduplication: the key iteration order of a JavaScript
object whose keys are inserted while scanning the sequence left to right. -/
def firstDedup : List Char → List Char
  | [] => []
  | a :: t => a :: (firstDedup t).filter fun c => decide (c ≠ a)

/-- Model of `getSequenceComposition`: count each character of the cleaned,
uppercased sequence and normalize each count to a percentage of the length. -/
def getSequenceComposition (s : List Char) : List (Char × ℚ) :=
  let cleaned := (cleanSequence s).map Char.toUpper
  (firstDedup cleaned).map fun c => (c, (cleaned.count c : ℚ) / cleaned.length * 100)

/-- The record returned by `getSequenceStats`. -/
structure CompositionStats where
  length : ℕ
  hydrophobicity : ℚ
  positiveCharge : ℚ
  negativeCharge : ℚ
  netCharge : ℚ
  composition : List (Char × ℚ)
deriving DecidableEq

/-- The hydrophobic-residue set of `getSequenceStats`. -/
def hydrophobicResidues : List Char := ['A', 'I', 'L', 'M', 'F', 'W', 'P', 'V']

/-- The lookup idiom `composition[aa] || 0`. -/
def compLookup (comp : List (Char × ℚ)) (c : Char) : ℚ :=
  (comp.lookup c).getD 0

/-- Model of `getSequenceStats`. -/
def getSequenceStats (s : List Char) : CompositionStats :=
  let cleaned := cleanSequence s
  let composition := getSequenceComposition s
  let hydrophobicCount :=
    (cleaned.filter fun c => decide (c ∈ hydrophobicResidues)).length
  let positive := (['K', 'R', 'H'].map (compLookup composition)).sum
  let negative := (['D', 'E'].map (compLookup composition)).sum
  { length := cleaned.length
    hydrophobicity := (hydrophobicCount : ℚ) / cleaned.length * 100
    positiveCharge := positive
    negativeCharge := negative
    netCharge := positive - negative
    composition := composition }

/-! ### Embedding feature extractor (source: src/lib/esm2-embeddings.ts)

Square roots force this module over `ℝ`; its functions are therefore stated
with explicit values rather than evaluated by `decide`. -/

/-- Descriptive statistics record of `calculateEmbeddingStats`. -/
structure EmbeddingStats (α : Type) where
  mean : α
  std : α
  min : α
  max : α
deriving DecidableEq

/-- The record returned by `extractEmbeddingFeatures`. -/
structure EmbeddingFeatures (α : Type) where
  embeddingStats : EmbeddingStats α
  regions : List α
  overallMagnitude : α
  dynamicRange : α
  complexity : α
deriving DecidableEq

/-- Model of `Math.min(...l)` for a nonempty list.  (On the empty list the
source produces `Infinity`, which has no counterpart in `ℝ`; every claim
involving it concerns nonempty vectors.) -/
noncomputable def listMin : List ℝ → ℝ
  | [] => 0
  | a :: t => t.foldl min a

/-- Model of `Math.max(...l)` for a nonempty list; see `listMin`. -/
noncomputable def listMax : List ℝ → ℝ
  | [] => 0
  | a :: t => t.foldl max a

/-- Model of `calculateEmbeddingStats`: arithmetic mean, population standard
deviation (division by N), minimum and maximum. -/
noncomputable def calculateEmbeddingStats (embedding : List ℝ) : EmbeddingStats ℝ :=
  let mean := embedding.sum / (embedding.length : ℝ)
  let variance := (embedding.map fun n => (n - mean) ^ 2).sum / (embedding.length : ℝ)
  { mean := mean
    std := Real.sqrt variance
    min := listMin embedding
    max := listMax embedding }

/-- Model of `extractEmbeddingFeatures`: statistics, ten contiguous regions of
`⌊N/10⌋` elements (the last region running to the end of the vector) with their
arithmetic means, Euclidean magnitude, dynamic range and complexity. -/
noncomputable def extractEmbeddingFeatures (embedding : List ℝ) : EmbeddingFeatures ℝ :=
  let stats := calculateEmbeddingStats embedding
  let regionSize := embedding.length / 10
  let regions := (List.range 10).map fun i =>
    let start := i * regionSize
    let stop := if i = 9 then embedding.length else (i + 1) * regionSize
    let region := (embedding.drop start).take (stop - start)
    region.sum / region.length
  { embeddingStats := stats
    regions := regions
    overallMagnitude := Real.sqrt ((embedding.map fun n => n * n).sum)
    dynamicRange := stats.max - stats.min
    complexity := stats.std }

/-- Model of `cosineSimilarity`: rejects vectors of different lengths, and
otherwise divides the dot product by the product of the vectors' Euclidean
norms, yielding 0 when that product is 0. -/
noncomputable def cosineSimilarity (embedding1 embedding2 : List ℝ) : Except String ℝ :=
  if embedding1.length ≠ embedding2.length then
    Except.error "Embeddings must have same length"
  else
    let dotProduct := ((embedding1.zip embedding2).map fun p => p.1 * p.2).sum
    let norm1 := (embedding1.map fun x => x * x).sum
    let norm2 := (embedding2.map fun x => x * x).sum
    let denominator := Real.sqrt norm1 * Real.sqrt norm2
    if denominator = 0 then Except.ok 0 else Except.ok (dotProduct / denominator)

/-- The Euclidean norm of a vector, as the specification words it: the square
root of the sum of the squares.  Used to state what `cosineSimilarity` divides
by. -/
noncomputable def euclideanNorm (v : List ℝ) : ℝ :=
  Real.sqrt ((v.map fun x => x * x).sum)

/-- The dot product of two vectors, as the specification words it. -/
noncomputable def dotProductOf (a b : List ℝ) : ℝ :=
  ((a.zip b).map fun p => p.1 * p.2).sum

/-! ### Rule-based classifier (source: src/lib/classification-engine.ts)

The classifier consumes a `CompositionStats` and an optional feature record;
no square root is taken inside it, so it is modelled computably over `ℚ`. -/

/-- The Gene Ontology namespace of a category. -/
inductive GOType where
  | molecularFunction
  | biologicalProcess
  | cellularComponent
deriving DecidableEq

/-- The `references` field of a category. -/
structure GOReferences where
  geneOntology : String
  uniProt : Option String
deriving DecidableEq

/-- A candidate classification entry. -/
structure FunctionalCategory where
  id : String
  name : String
  type : GOType
  confidence : ℚ
  description : String
  examples : List String
  references : GOReferences
  embeddingBased : Option Bool
deriving DecidableEq

/-- The aggregate output record of the classifier. -/
structure ClassificationResult where
  sequence : List Char
  sequenceId : String
  length : ℕ
  primaryFunctions : List FunctionalCategory
  secondaryFunctions : List FunctionalCategory
  confidence : ℚ
  notes : List String
  embeddingFeatures : Option (EmbeddingFeatures ℚ)

/-- The Transporter Activity entry pushed by the hydrophobicity rule. -/
def transporterActivity (confidence : ℚ) (embeddingBased : Bool) : FunctionalCategory :=
  { id := "GO:0005215"
    name := "Transporter Activity"
    type := .molecularFunction
    confidence := confidence
    description := "Enables the directed movement of substances across membranes or cellular components."
    examples := ["Ion channels", "Aquaporins", "Transporters"]
    references := { geneOntology := "GO:0005215", uniProt := some "TRANSMEM" }
    embeddingBased := some embeddingBased }

/-- The Intrinsic Component of Membrane entry pushed by the hydrophobicity rule. -/
def intrinsicMembraneComponent : FunctionalCategory :=
  { id := "GO:0031224"
    name := "Intrinsic Component of Membrane"
    type := .cellularComponent
    confidence := 0.68
    description := "Proteins with strong hydrophobic character often localize to membranes."
    examples := ["GPCRs", "Tight junction proteins", "Adhesion molecules"]
    references := { geneOntology := "GO:0031224", uniProt := none }
    embeddingBased := none }

/-- The DNA Binding entry pushed by the net-charge rule. -/
def dnaBinding (confidence : ℚ) (embeddingBased : Bool) : FunctionalCategory :=
  { id := "GO:0003677"
    name := "DNA Binding"
    type := .molecularFunction
    confidence := confidence
    description := "Interacting selectively and non-covalently with DNA."
    examples := ["Transcription factors", "Histones", "Helicases"]
    references := { geneOntology := "GO:0003677", uniProt := some "DNA_BIND" }
    embeddingBased := some embeddingBased }

/-- The RNA Binding entry pushed by the net-charge rule. -/
def rnaBinding : FunctionalCategory :=
  { id := "GO:0003723"
    name := "RNA Binding"
    type := .molecularFunction
    confidence := 0.65
    description := "Interacting selectively and non-covalently with RNA."
    examples := ["Ribosomes", "snRNPs", "tRNA synthetases"]
    references := { geneOntology := "GO:0003723", uniProt := some "RNA_BIND" }
    embeddingBased := none }

/-- The Transferase Activity entry pushed by the histidine rule. -/
def transferaseActivity : FunctionalCategory :=
  { id := "GO:0016740"
    name := "Transferase Activity"
    type := .molecularFunction
    confidence := 0.62
    description := "Catalyzes the transfer of a group from one compound to another."
    examples := ["Kinases", "Phosphatases", "Methyltransferases"]
    references := { geneOntology := "GO:0016740", uniProt := some "TRANSFERASE" }
    embeddingBased := none }

/-- The Signal Transducer Activity entry pushed by the proline rule. -/
def signalTransducerActivity : FunctionalCategory :=
  { id := "GO:0004871"
    name := "Signal Transducer Activity"
    type := .molecularFunction
    confidence := 0.58
    description := "Conveys a signal across a cell to trigger a response."
    examples := ["SH3-domain proteins", "PH-domain proteins"]
    references := { geneOntology := "GO:0004871", uniProt := none }
    embeddingBased := none }

/-- The Protein Disulfide Oxidoreductase Activity entry pushed by the cysteine rule. -/
def disulfideOxidoreductase : FunctionalCategory :=
  { id := "GO:0015035"
    name := "Protein Disulfide Oxidoreductase Activity"
    type := .molecularFunction
    confidence := 0.64
    description := "Catalyzes the formation and reduction of disulfide bonds."
    examples := ["Thioredoxins", "PDI", "Glutaredoxins"]
    references := { geneOntology := "GO:0015035", uniProt := none }
    embeddingBased := none }

/-- The Structural Protein Activity entry pushed by the cysteine rule. -/
def structuralProteinActivity : FunctionalCategory :=
  { id := "GO:0005200"
    name := "Structural Protein Activity"
    type := .molecularFunction
    confidence := 0.6
    description := "Provides structural support to cells."
    examples := ["Keratins", "Collagens", "Fibrinogen"]
    references := { geneOntology := "GO:0005200", uniProt := none }
    embeddingBased := none }

/-- The Metabolic Process entry pushed by the length rule. -/
def metabolicProcess : FunctionalCategory :=
  { id := "GO:0008152"
    name := "Metabolic Process"
    type := .biologicalProcess
    confidence := 0.55
    description := "Chemical reactions and pathways that modify substances."
    examples := ["Glycolysis", "TCA cycle", "Photosynthesis"]
    references := { geneOntology := "GO:0008152", uniProt := none }
    embeddingBased := none }

/-- The Intracellular Component entry pushed unconditionally. -/
def intracellularComponent : FunctionalCategory :=
  { id := "GO:0005623"
    name := "Intracellular Component"
    type := .cellularComponent
    confidence := 0.5
    description := "Proteins contained within the cell."
    examples := ["Soluble proteins", "Organellar proteins"]
    references := { geneOntology := "GO:0005623", uniProt := none }
    embeddingBased := none }

/-- The idiom `embeddingFeatures?.complexity || 0`. -/
def efComplexity (ef : Option (EmbeddingFeatures ℚ)) : ℚ :=
  ((ef.map fun f => f.complexity).getD 0)

/-- The hydrophobicity-rule confidence: the base formula, boosted by 0.1 and
capped at 0.95 when embedding features are present with complexity above 0.5. -/
def hydroConfidence (stats : CompositionStats) (ef : Option (EmbeddingFeatures ℚ)) : ℚ :=
  let confidence := 0.75 + (stats.hydrophobicity - 45) * 0.005
  match ef with
  | some f => if f.complexity > 0.5 then min (confidence + 0.1) 0.95 else confidence
  | none => confidence

/-- The condition idiom `stats.composition[c] && stats.composition[c] > t`:
the looked-up value must exist, be truthy, and exceed the threshold. -/
def compGt (comp : List (Char × ℚ)) (c : Char) (t : ℚ) : Bool :=
  match comp.lookup c with
  | some v => decide (v ≠ 0) && decide (v > t)
  | none => false

/-- The primary candidate list, in the order the rules push entries. -/
def primaryCandidates (stats : CompositionStats)
    (ef : Option (EmbeddingFeatures ℚ)) : List FunctionalCategory :=
  (if stats.hydrophobicity > 45 then
    [transporterActivity (hydroConfidence stats ef) ef.isSome]
   else []) ++
  (if |stats.netCharge| > 15 then
    [dnaBinding (min (0.7 + efComplexity ef * 0.15) 0.95) ef.isSome, rnaBinding]
   else []) ++
  (if compGt stats.composition 'H' 2 then [transferaseActivity] else []) ++
  (if stats.length > 300 then [metabolicProcess] else []) ++
  [intracellularComponent]

/-- The secondary candidate list, in the order the rules push entries. -/
def secondaryCandidates (stats : CompositionStats) : List FunctionalCategory :=
  (if stats.hydrophobicity > 45 then [intrinsicMembraneComponent] else []) ++
  (if compGt stats.composition 'P' 5 then [signalTransducerActivity] else []) ++
  (if compGt stats.composition 'C' 3 then
    [disulfideOxidoreductase, structuralProteinActivity]
   else [])

/-- The sort order of `.sort((a, b) => b.confidence - a.confidence)`:
descending confidence. -/
def confDesc (a b : FunctionalCategory) : Prop :=
  b.confidence ≤ a.confidence

instance : DecidableRel confDesc :=
  fun a b => inferInstanceAs (Decidable (b.confidence ≤ a.confidence))

instance : IsTotal FunctionalCategory confDesc :=
  ⟨fun a b => le_total b.confidence a.confidence⟩

instance : IsTrans FunctionalCategory confDesc :=
  ⟨fun _ _ _ h1 h2 => le_trans h2 h1⟩

/-- Model of
`[...primaryFunctions, ...secondaryFunctions].sort((a, b) => b.confidence - a.confidence).slice(0, 8)`:
the candidates ranked by descending confidence and truncated to the top 8.
JavaScript `sort` is stable; a stable sort is modelled by insertion sort. -/
def rankedTop8 (stats : CompositionStats)
    (ef : Option (EmbeddingFeatures ℚ)) : List FunctionalCategory :=
  (List.insertionSort confDesc
    (primaryCandidates stats ef ++ secondaryCandidates stats)).take 8

/-- Decimal rendering of a rational for the note strings, `q.toFixed(d)`.
(Rounding of exact rationals; the binary-float rounding of the source can
differ in the last digit, which no claim depends on.) -/
def toFixed (d : ℕ) (q : ℚ) : String :=
  let p : ℕ := 10 ^ d
  let n := round (q * p)
  let a := n.natAbs
  let frac := toString (a % p)
  (if n < 0 then "-" else "") ++ toString (a / p) ++ "." ++
    String.mk (List.replicate (d - frac.length) '0') ++ frac

/-- The advisory note strings, in emission order. -/
def classificationNotes (stats : CompositionStats)
    (ef : Option (EmbeddingFeatures ℚ)) : List String :=
  (if stats.hydrophobicity > 45 then
    ["High hydrophobicity (" ++ toFixed 1 stats.hydrophobicity ++
      "%) suggests membrane association"]
   else []) ++
  (if |stats.netCharge| > 15 then
    ["High net charge (" ++ (if stats.netCharge > 0 then "+" else "") ++
      toFixed 1 stats.netCharge ++ ") suggests nucleic acid binding"]
   else []) ++
  (if stats.length < 50 then
    ["Short sequence detected - may be a peptide or domain"]
   else []) ++
  (match ef with
   | some f =>
     (if f.complexity > 0.7 then
       ["Complex structural patterns detected in embedding (score: " ++
         toFixed 2 f.complexity ++ ")"]
      else []) ++
     (if f.dynamicRange > 1.5 then
       ["Diverse functional regions predicted based on embedding analysis"]
      else [])
   | none => [])

/-- Model of `classifyProteinWithEmbeddings`: build both candidate lists, rank
all candidates together by descending confidence, keep the top 8, split them
back by original list membership, and average the surviving primary
confidences (0.5 if none survive). -/
def classifyProteinWithEmbeddings (sequence : List Char) (stats : CompositionStats)
    (sequenceId : String) (embeddingFeatures : Option (EmbeddingFeatures ℚ)) :
    ClassificationResult :=
  let primaryFunctions := primaryCandidates stats embeddingFeatures
  let secondaryFunctions := secondaryCandidates stats
  let allFunctions := rankedTop8 stats embeddingFeatures
  let sortedPrimary := allFunctions.filter fun f => decide (f ∈ primaryFunctions)
  let sortedSecondary := allFunctions.filter fun f => decide (f ∈ secondaryFunctions)
  let overallConfidence :=
    if sortedPrimary.length > 0 then
      (sortedPrimary.map fun f => f.confidence).sum / sortedPrimary.length
    else 0.5
  { sequence := sequence
    sequenceId := sequenceId
    length := stats.length
    primaryFunctions := sortedPrimary
    secondaryFunctions := sortedSecondary
    confidence := overallConfidence
    notes := classificationNotes stats embeddingFeatures
    embeddingFeatures := embeddingFeatures }

/-- Model of `classifyProtein`: classification without embedding features. -/
def classifyProtein (sequence : List Char) (stats : CompositionStats)
    (sequenceId : String) : ClassificationResult :=
  classifyProteinWithEmbeddings sequence stats sequenceId none

/-! ### Concrete inputs used by witnesses and counterexamples -/

/-- The alternating sequence `AG` repeated to length 40. -/
def agSeq : List Char := (List.replicate 20 ['A', 'G']).flatten

/-- A sequence of ten leucines (hydrophobicity 100). -/
def polyLeucine : List Char := List.replicate 10 'L'

/-- A statistics record that triggers no rule. -/
def zeroStats : CompositionStats :=
  { length := 0, hydrophobicity := 0, positiveCharge := 0, negativeCharge := 0
    netCharge := 0, composition := [] }

/-- A statistics record with hydrophobicity 50 and no other rule triggered. -/
def hydroStats : CompositionStats :=
  { length := 40, hydrophobicity := 50, positiveCharge := 0, negativeCharge := 0
    netCharge := 0, composition := [] }

/-! ### Theorem for claim C1 -/

/-- C1: the claim says `clean` returns the input uppercased with whitespace and
digits stripped; but on the input "abc" the code returns "abc" unchanged (the
uppercase/strip chain is used only as the ternary condition and its value is
discarded), not the claimed "ABC". -/
theorem cleanSequence_keeps_lowercase :
    cleanSequence ['a', 'b', 'c'] = ['a', 'b', 'c'] ∧
      cleanSequence ['a', 'b', 'c'] ≠ ['A', 'B', 'C'] := by
  decide

/-! ### Helper lemmas about the candidate lists -/

theorem mem_if_nil {α : Type} {c : Prop} [Decidable c] {l : List α} {x : α} :
    x ∈ (if c then l else []) ↔ c ∧ x ∈ l := by
  split_ifs with h <;> simp [h]

theorem mem_primaryCandidates {stats : CompositionStats}
    {ef : Option (EmbeddingFeatures ℚ)} {x : FunctionalCategory} :
    x ∈ primaryCandidates stats ef ↔
      (stats.hydrophobicity > 45 ∧
        x = transporterActivity (hydroConfidence stats ef) ef.isSome) ∨
      (|stats.netCharge| > 15 ∧
        (x = dnaBinding (min (0.7 + efComplexity ef * 0.15) 0.95) ef.isSome ∨
          x = rnaBinding)) ∨
      (compGt stats.composition 'H' 2 = true ∧ x = transferaseActivity) ∨
      (stats.length > 300 ∧ x = metabolicProcess) ∨
      x = intracellularComponent := by
  simp only [primaryCandidates, List.mem_append, mem_if_nil, List.mem_cons,
    List.mem_singleton, List.not_mem_nil, or_false]
  tauto

theorem mem_secondaryCandidates {stats : CompositionStats} {x : FunctionalCategory} :
    x ∈ secondaryCandidates stats ↔
      (stats.hydrophobicity > 45 ∧ x = intrinsicMembraneComponent) ∨
      (compGt stats.composition 'P' 5 = true ∧ x = signalTransducerActivity) ∨
      (compGt stats.composition 'C' 3 = true ∧
        (x = disulfideOxidoreductase ∨ x = structuralProteinActivity)) := by
  simp only [secondaryCandidates, List.mem_append, mem_if_nil, List.mem_cons,
    List.mem_singleton, List.not_mem_nil, or_false]
  tauto

theorem id_mem_primary {stats : CompositionStats} {ef : Option (EmbeddingFeatures ℚ)}
    {x : FunctionalCategory} (hx : x ∈ primaryCandidates stats ef) :
    x.id ∈ (["GO:0005215", "GO:0003677", "GO:0003723", "GO:0016740",
      "GO:0008152", "GO:0005623"] : List String) := by
  rcases mem_primaryCandidates.mp hx with
    ⟨_, rfl⟩ | ⟨_, rfl | rfl⟩ | ⟨_, rfl⟩ | ⟨_, rfl⟩ | rfl <;>
    simp [transporterActivity, dnaBinding, rnaBinding, transferaseActivity,
      metabolicProcess, intracellularComponent]

theorem id_mem_secondary {stats : CompositionStats} {x : FunctionalCategory}
    (hx : x ∈ secondaryCandidates stats) :
    x.id ∈ (["GO:0031224", "GO:0004871", "GO:0015035", "GO:0005200"] : List String) := by
  rcases mem_secondaryCandidates.mp hx with ⟨_, rfl⟩ | ⟨_, rfl⟩ | ⟨_, rfl | rfl⟩ <;>
    simp [intrinsicMembraneComponent, signalTransducerActivity,
      disulfideOxidoreductase, structuralProteinActivity]

/-- No category value can sit in both candidate lists: the Gene Ontology id
sets of the two lists are disjoint. -/
theorem candidates_disjoint {stats : CompositionStats} {ef : Option (EmbeddingFeatures ℚ)}
    {x y : FunctionalCategory} (hx : x ∈ primaryCandidates stats ef)
    (hy : y ∈ secondaryCandidates stats) : x ≠ y := by
  intro h
  have h1 := id_mem_primary hx
  have h2 := id_mem_secondary hy
  rw [h] at h1
  simp only [List.mem_cons, List.not_mem_nil, or_false] at h1 h2
  rcases h1 with h1 | h1 | h1 | h1 | h1 | h1 <;>
    rcases h2 with h2 | h2 | h2 | h2 <;>
    exact absurd (h1.symm.trans h2) (by decide)

/-- Two `Bool`-valued predicates that never hold together count at most the
whole list between them. -/
theorem length_filter_add_length_filter_le {α : Type} (l : List α) (P Q : α → Bool)
    (h : ∀ x ∈ l, ¬(P x = true ∧ Q x = true)) :
    (l.filter P).length + (l.filter Q).length ≤ l.length := by
  induction l with
  | nil => simp
  | cons a t ih =>
    have ht : ∀ x ∈ t, ¬(P x = true ∧ Q x = true) := fun x hx =>
      h x (List.mem_cons_of_mem a hx)
    have ha := h a (List.mem_cons_self a t)
    have := ih ht
    by_cases hp : P a = true
    · by_cases hq : Q a = true
      · exact absurd ⟨hp, hq⟩ ha
      · simp [List.filter_cons, hp, hq]; omega
    · by_cases hq : Q a = true <;> simp [List.filter_cons, hp, hq] <;> omega

/-- The output `confidence` field, unfolded: mean of the surviving primary
confidences, 0.5 if none survive. -/
theorem confidence_formula (seq : List Char) (stats : CompositionStats)
    (sid : String) (ef : Option (EmbeddingFeatures ℚ)) :
    (classifyProteinWithEmbeddings seq stats sid ef).confidence =
      if 0 < (classifyProteinWithEmbeddings seq stats sid ef).primaryFunctions.length then
        ((classifyProteinWithEmbeddings seq stats sid ef).primaryFunctions.map
            fun f => f.confidence).sum /
          ((classifyProteinWithEmbeddings seq stats sid ef).primaryFunctions.length : ℚ)
      else 0.5 :=
  rfl

/-- The two output lists, unfolded. -/
theorem output_lists (seq : List Char) (stats : CompositionStats)
    (sid : String) (ef : Option (EmbeddingFeatures ℚ)) :
    (classifyProteinWithEmbeddings seq stats sid ef).primaryFunctions =
        (rankedTop8 stats ef).filter (fun f => decide (f ∈ primaryCandidates stats ef)) ∧
      (classifyProteinWithEmbeddings seq stats sid ef).secondaryFunctions =
        (rankedTop8 stats ef).filter (fun f => decide (f ∈ secondaryCandidates stats)) :=
  ⟨rfl, rfl⟩

/-! ### Theorems for the classifier claims -/

/-- C6: in every `ClassificationResult`, `primaryFunctions` and
`secondaryFunctions` are each sorted by non-increasing confidence, the two
lists together hold at most 8 entries, and an entry demoted out of the ranked
top 8 appears in neither list. -/
theorem classify_ranking_invariant (seq : List Char) (stats : CompositionStats)
    (sid : String) (ef : Option (EmbeddingFeatures ℚ)) :
    (classifyProteinWithEmbeddings seq stats sid ef).primaryFunctions.Pairwise
        (fun a b => b.confidence ≤ a.confidence) ∧
      (classifyProteinWithEmbeddings seq stats sid ef).secondaryFunctions.Pairwise
        (fun a b => b.confidence ≤ a.confidence) ∧
      (classifyProteinWithEmbeddings seq stats sid ef).primaryFunctions.length +
          (classifyProteinWithEmbeddings seq stats sid ef).secondaryFunctions.length ≤ 8 ∧
      ∀ f, f ∉ rankedTop8 stats ef →
        f ∉ (classifyProteinWithEmbeddings seq stats sid ef).primaryFunctions ∧
          f ∉ (classifyProteinWithEmbeddings seq stats sid ef).secondaryFunctions := by
  obtain ⟨hp, hs⟩ := output_lists seq stats sid ef
  have hsorted : (rankedTop8 stats ef).Pairwise confDesc :=
    List.Pairwise.sublist (List.take_sublist _ _)
      (List.sorted_insertionSort confDesc
        (primaryCandidates stats ef ++ secondaryCandidates stats))
  refine ⟨?_, ?_, ?_, ?_⟩
  · rw [hp]
    exact List.Pairwise.sublist (List.filter_sublist _) hsorted
  · rw [hs]
    exact List.Pairwise.sublist (List.filter_sublist _) hsorted
  · rw [hp, hs]
    have hdisj : ∀ x ∈ rankedTop8 stats ef,
        ¬(decide (x ∈ primaryCandidates stats ef) = true ∧
          decide (x ∈ secondaryCandidates stats) = true) := by
      intro x _ h
      exact candidates_disjoint (of_decide_eq_true h.1) (of_decide_eq_true h.2) rfl
    have h8 : (rankedTop8 stats ef).length ≤ 8 := by
      unfold rankedTop8
      rw [List.length_take]
      exact min_le_left _ _
    exact le_trans (length_filter_add_length_filter_le _ _ _ hdisj) h8
  · intro f hf
    rw [hp, hs]
    exact ⟨fun hm => hf (List.mem_of_mem_filter hm),
      fun hm => hf (List.mem_of_mem_filter hm)⟩

theorem rankedTop8_zeroStats : rankedTop8 zeroStats none = [intracellularComponent] := by
  norm_num [rankedTop8, primaryCandidates, secondaryCandidates, zeroStats, compGt,
    List.lookup, List.insertionSort, List.orderedInsert]

/-- Witness for C6 at a concrete input: the RNA Binding entry is outside the
ranked top 8 of the trivial statistics record and therefore in neither output
list. -/
theorem classify_ranking_invariant_witness :
    rnaBinding ∉ rankedTop8 zeroStats none ∧
      rnaBinding ∉ (classifyProteinWithEmbeddings [] zeroStats "" none).primaryFunctions ∧
      rnaBinding ∉ (classifyProteinWithEmbeddings [] zeroStats "" none).secondaryFunctions := by
  have hnot : rnaBinding ∉ rankedTop8 zeroStats none := by
    rw [rankedTop8_zeroStats]
    decide
  exact ⟨hnot,
    ((classify_ranking_invariant [] zeroStats "" none).2.2.2 rnaBinding hnot).1,
    ((classify_ranking_invariant [] zeroStats "" none).2.2.2 rnaBinding hnot).2⟩

/-- C8: whenever hydrophobicity exceeds 45, the primary candidate list holds a
Transporter Activity entry whose confidence is `0.75 + (hydrophobicity − 45) × 0.005`,
boosted by 0.10 and capped at 0.95 exactly when embedding features are supplied
with complexity above 0.5, and the secondary candidate list holds the Intrinsic
Membrane Component entry at fixed confidence 0.68. -/
theorem hydrophobicity_rule (stats : CompositionStats)
    (ef : Option (EmbeddingFeatures ℚ)) (hh : stats.hydrophobicity > 45) :
    transporterActivity
        (match ef with
         | some f =>
           if f.complexity > 0.5 then
             min (0.75 + (stats.hydrophobicity - 45) * 0.005 + 0.1) 0.95
           else 0.75 + (stats.hydrophobicity - 45) * 0.005
         | none => 0.75 + (stats.hydrophobicity - 45) * 0.005) ef.isSome
      ∈ primaryCandidates stats ef ∧
      intrinsicMembraneComponent ∈ secondaryCandidates stats ∧
      intrinsicMembraneComponent.confidence = 0.68 := by
  have hconf : (match ef with
         | some f =>
           if f.complexity > 0.5 then
             min (0.75 + (stats.hydrophobicity - 45) * 0.005 + 0.1) 0.95
           else 0.75 + (stats.hydrophobicity - 45) * 0.005
         | none => 0.75 + (stats.hydrophobicity - 45) * 0.005) =
      hydroConfidence stats ef := by
    cases ef <;> rfl
  rw [hconf]
  exact ⟨mem_primaryCandidates.mpr (Or.inl ⟨hh, rfl⟩),
    mem_secondaryCandidates.mpr (Or.inl ⟨hh, rfl⟩), rfl⟩

/-- Witness for C8 at a concrete input with hydrophobicity 50 and no embedding
features. -/
theorem hydrophobicity_rule_witness :
    hydroStats.hydrophobicity > 45 ∧
      transporterActivity (0.75 + (hydroStats.hydrophobicity - 45) * 0.005) false
        ∈ primaryCandidates hydroStats none ∧
      intrinsicMembraneComponent ∈ secondaryCandidates hydroStats := by
  have h45 : hydroStats.hydrophobicity > 45 := by norm_num [hydroStats]
  have h := hydrophobicity_rule hydroStats none h45
  exact ⟨h45, h.1, h.2.1⟩

/-- C9: the overall confidence is the arithmetic mean of the confidences of the
(possibly truncated) `primaryFunctions` list, and 0.5 when that list is empty. -/
theorem overall_confidence_mean (seq : List Char) (stats : CompositionStats)
    (sid : String) (ef : Option (EmbeddingFeatures ℚ)) :
    (classifyProteinWithEmbeddings seq stats sid ef).confidence =
      if (classifyProteinWithEmbeddings seq stats sid ef).primaryFunctions = [] then 0.5
      else ((classifyProteinWithEmbeddings seq stats sid ef).primaryFunctions.map
          fun f => f.confidence).sum /
        ((classifyProteinWithEmbeddings seq stats sid ef).primaryFunctions.length : ℚ) := by
  rw [confidence_formula]
  by_cases h : (classifyProteinWithEmbeddings seq stats sid ef).primaryFunctions = []
  · simp [h]
  · simp [h, List.length_pos.mpr h]

/-- C10: `primaryFunctions` is never empty — the candidate primary list always
holds the Intracellular Component entry and at most 4 secondary candidates
exist, so a primary entry always survives the top-8 truncation — and the 0.5
empty-primary fallback for the overall confidence is never taken. -/
theorem primary_functions_nonempty (seq : List Char) (stats : CompositionStats)
    (sid : String) (ef : Option (EmbeddingFeatures ℚ)) :
    (classifyProteinWithEmbeddings seq stats sid ef).primaryFunctions ≠ [] ∧
      intracellularComponent ∈ primaryCandidates stats ef ∧
      (secondaryCandidates stats).length ≤ 4 ∧
      (classifyProteinWithEmbeddings seq stats sid ef).confidence =
        ((classifyProteinWithEmbeddings seq stats sid ef).primaryFunctions.map
            fun f => f.confidence).sum /
          ((classifyProteinWithEmbeddings seq stats sid ef).primaryFunctions.length : ℚ) := by
  have hic : intracellularComponent ∈ primaryCandidates stats ef :=
    mem_primaryCandidates.mpr (Or.inr (Or.inr (Or.inr (Or.inr rfl))))
  have hslen : (secondaryCandidates stats).length ≤ 4 := by
    unfold secondaryCandidates
    split_ifs <;> simp
  have hperm : (List.insertionSort confDesc
      (primaryCandidates stats ef ++ secondaryCandidates stats)).Perm
      (primaryCandidates stats ef ++ secondaryCandidates stats) :=
    List.perm_insertionSort _ _
  have hsub : (rankedTop8 stats ef).Sublist (List.insertionSort confDesc
      (primaryCandidates stats ef ++ secondaryCandidates stats)) := by
    unfold rankedTop8
    exact List.take_sublist _ _
  have hGp : List.countP (fun f => decide (f ∈ secondaryCandidates stats))
      (primaryCandidates stats ef) = 0 :=
    List.countP_eq_zero.mpr fun x hx => by
      simp only [decide_eq_true_eq]
      intro hxs
      exact candidates_disjoint hx hxs rfl
  have hGall : List.countP (fun f => decide (f ∈ secondaryCandidates stats))
      (rankedTop8 stats ef) ≤ 4 := by
    calc List.countP (fun f => decide (f ∈ secondaryCandidates stats)) (rankedTop8 stats ef)
        ≤ List.countP (fun f => decide (f ∈ secondaryCandidates stats))
            (List.insertionSort confDesc
              (primaryCandidates stats ef ++ secondaryCandidates stats)) :=
          hsub.countP_le _
      _ = List.countP (fun f => decide (f ∈ secondaryCandidates stats))
            (primaryCandidates stats ef ++ secondaryCandidates stats) :=
          hperm.countP_eq _
      _ = List.countP (fun f => decide (f ∈ secondaryCandidates stats))
            (primaryCandidates stats ef) +
          List.countP (fun f => decide (f ∈ secondaryCandidates stats))
            (secondaryCandidates stats) :=
          List.countP_append _ _ _
      _ ≤ 4 := by
          have := List.countP_le_length
            (fun f => decide (f ∈ secondaryCandidates stats))
            (l := secondaryCandidates stats)
          omega
  have hnotF : List.countP
      (fun a => decide ¬((fun f => decide (f ∈ primaryCandidates stats ef)) a = true))
      (rankedTop8 stats ef) ≤
      List.countP (fun f => decide (f ∈ secondaryCandidates stats)) (rankedTop8 stats ef) := by
    apply List.countP_mono_left
    intro x hx hnx
    simp only [decide_eq_true_eq] at hnx ⊢
    have hx2 : x ∈ primaryCandidates stats ef ++ secondaryCandidates stats :=
      hperm.mem_iff.mp (hsub.mem hx)
    rcases List.mem_append.mp hx2 with h | h
    · exact absurd h hnx
    · exact h
  have hposF : 0 < List.countP (fun f => decide (f ∈ primaryCandidates stats ef))
      (rankedTop8 stats ef) := by
    by_cases hc : (primaryCandidates stats ef ++ secondaryCandidates stats).length ≤ 8
    · have hall : rankedTop8 stats ef = List.insertionSort confDesc
          (primaryCandidates stats ef ++ secondaryCandidates stats) := by
        unfold rankedTop8
        exact List.take_of_length_le (by rw [hperm.length_eq]; exact hc)
      rw [hall, hperm.countP_eq _, List.countP_append]
      have hcount : List.countP (fun f => decide (f ∈ primaryCandidates stats ef))
          (primaryCandidates stats ef) = (primaryCandidates stats ef).length :=
        List.countP_eq_length.mpr fun a ha => by simpa using ha
      have hppos : 0 < (primaryCandidates stats ef).length :=
        List.length_pos.mpr fun h => by
          rw [h] at hic
          exact absurd hic (List.not_mem_nil _)
      omega
    · have hlen8 : (rankedTop8 stats ef).length = 8 := by
        unfold rankedTop8
        rw [List.length_take, hperm.length_eq]
        omega
      have hsum : List.countP (fun f => decide (f ∈ primaryCandidates stats ef))
            (rankedTop8 stats ef) +
          List.countP
            (fun a => decide ¬((fun f => decide (f ∈ primaryCandidates stats ef)) a = true))
            (rankedTop8 stats ef) = 8 := by
        rw [← hlen8]
        exact (List.length_eq_countP_add_countP _ _).symm
      omega
  have hne : (classifyProteinWithEmbeddings seq stats sid ef).primaryFunctions ≠ [] := by
    rw [(output_lists seq stats sid ef).1]
    intro h
    have hz : (List.filter (fun f => decide (f ∈ primaryCandidates stats ef))
        (rankedTop8 stats ef)).length = 0 := by
      rw [h]
      rfl
    rw [← List.countP_eq_length_filter] at hz
    omega
  refine ⟨hne, hic, hslen, ?_⟩
  rw [confidence_formula, if_pos (List.length_pos.mpr hne)]

/-! ### Evaluation of the classifier when only the hydrophobicity rule fires -/

theorem ne_of_id_ne {a b : FunctionalCategory} (h : a.id ≠ b.id) : a ≠ b :=
  fun he => h (congrArg FunctionalCategory.id he)

theorem classify_hydro_only (seq : List Char) (stats : CompositionStats) (sid : String)
    (hh : stats.hydrophobicity > 45)
    (hn : ¬(|stats.netCharge| > 15))
    (hH : compGt stats.composition 'H' 2 = false)
    (hP : compGt stats.composition 'P' 5 = false)
    (hC : compGt stats.composition 'C' 3 = false)
    (hl : ¬(stats.length > 300)) :
    (classifyProteinWithEmbeddings seq stats sid none).primaryFunctions =
        [transporterActivity (0.75 + (stats.hydrophobicity - 45) * 0.005) false,
          intracellularComponent] ∧
      (classifyProteinWithEmbeddings seq stats sid none).secondaryFunctions =
        [intrinsicMembraneComponent] := by
  have hpc : primaryCandidates stats none =
      [transporterActivity (0.75 + (stats.hydrophobicity - 45) * 0.005) false,
        intracellularComponent] := by
    simp [primaryCandidates, hh, hn, hH, hl, hydroConfidence]
  have hsc : secondaryCandidates stats = [intrinsicMembraneComponent] := by
    simp [secondaryCandidates, hh, hP, hC]
  have hTconf : (0.68 : ℚ) ≤ 0.75 + (stats.hydrophobicity - 45) * 0.005 := by linarith
  have hIcM : ¬confDesc intracellularComponent intrinsicMembraneComponent := by
    simp only [confDesc, intracellularComponent, intrinsicMembraneComponent]
    norm_num
  have hTM : confDesc
      (transporterActivity (0.75 + (stats.hydrophobicity - 45) * 0.005) false)
      intrinsicMembraneComponent := by
    simpa only [confDesc, transporterActivity, intrinsicMembraneComponent] using hTconf
  have hrank : rankedTop8 stats none =
      [transporterActivity (0.75 + (stats.hydrophobicity - 45) * 0.005) false,
        intrinsicMembraneComponent, intracellularComponent] := by
    unfold rankedTop8
    rw [hpc, hsc]
    have hsort : List.insertionSort confDesc
        ([transporterActivity (0.75 + (stats.hydrophobicity - 45) * 0.005) false,
          intracellularComponent] ++ [intrinsicMembraneComponent]) =
        [transporterActivity (0.75 + (stats.hydrophobicity - 45) * 0.005) false,
          intrinsicMembraneComponent, intracellularComponent] := by
      simp [List.insertionSort, List.orderedInsert, hIcM, hTM]
    rw [hsort]
    exact List.take_of_length_le (by simp)
  have neMT : intrinsicMembraneComponent ≠
      transporterActivity (0.75 + (stats.hydrophobicity - 45) * 0.005) false :=
    ne_of_id_ne (by decide : ¬("GO:0031224" : String) = "GO:0005215")
  have neMIc : intrinsicMembraneComponent ≠ intracellularComponent :=
    ne_of_id_ne (by decide : ¬("GO:0031224" : String) = "GO:0005623")
  have neTM : transporterActivity (0.75 + (stats.hydrophobicity - 45) * 0.005) false ≠
      intrinsicMembraneComponent :=
    ne_of_id_ne (by decide : ¬("GO:0005215" : String) = "GO:0031224")
  have neIcM : intracellularComponent ≠ intrinsicMembraneComponent :=
    ne_of_id_ne (by decide : ¬("GO:0005623" : String) = "GO:0031224")
  obtain ⟨hp1, hs1⟩ := output_lists seq stats sid none
  constructor
  · rw [hp1, hrank, hpc]
    simp [List.filter_cons, List.mem_cons, neMT, neMIc]
  · rw [hs1, hrank, hsc]
    simp [List.filter_cons, List.mem_cons, neTM, neIcM]

/-! ### Concrete statistics for the poly-leucine and AG sequences -/

theorem comp_polyLeucine : getSequenceComposition polyLeucine =
    [('L', (10 : ℚ) / 10 * 100)] := by
  have hclean : (cleanSequence polyLeucine).map Char.toUpper = polyLeucine := by decide
  have hded : firstDedup polyLeucine = ['L'] := by decide
  have hcount : polyLeucine.count 'L' = 10 := by decide
  have hlen : polyLeucine.length = 10 := by decide
  simp [getSequenceComposition, hclean, hded, hcount, hlen]

theorem stats_polyLeucine_parts :
    (getSequenceStats polyLeucine).hydrophobicity = 100 ∧
      (getSequenceStats polyLeucine).netCharge = 0 ∧
      compGt (getSequenceStats polyLeucine).composition 'H' 2 = false ∧
      compGt (getSequenceStats polyLeucine).composition 'P' 5 = false ∧
      compGt (getSequenceStats polyLeucine).composition 'C' 3 = false ∧
      (getSequenceStats polyLeucine).length = 10 := by
  have hcl : cleanSequence polyLeucine = polyLeucine := by decide
  have hcnt : (polyLeucine.filter fun c => decide (c ∈ hydrophobicResidues)).length = 10 := by
    decide
  have hlen : polyLeucine.length = 10 := by decide
  have hcompo : (getSequenceStats polyLeucine).composition =
      [('L', (10 : ℚ) / 10 * 100)] := by
    rw [show (getSequenceStats polyLeucine).composition =
      getSequenceComposition polyLeucine from rfl, comp_polyLeucine]
  have lK : compLookup [('L', (10 : ℚ) / 10 * 100)] 'K' = 0 := rfl
  have lR : compLookup [('L', (10 : ℚ) / 10 * 100)] 'R' = 0 := rfl
  have lH : compLookup [('L', (10 : ℚ) / 10 * 100)] 'H' = 0 := rfl
  have lD : compLookup [('L', (10 : ℚ) / 10 * 100)] 'D' = 0 := rfl
  have lE : compLookup [('L', (10 : ℚ) / 10 * 100)] 'E' = 0 := rfl
  refine ⟨?_, ?_, ?_, ?_, ?_, ?_⟩
  · show ((cleanSequence polyLeucine).filter fun c =>
        decide (c ∈ hydrophobicResidues)).length / ((cleanSequence polyLeucine).length : ℚ)
        * 100 = 100
    rw [hcl, hcnt, hlen]
    norm_num
  · show (['K', 'R', 'H'].map (compLookup (getSequenceComposition polyLeucine))).sum -
        (['D', 'E'].map (compLookup (getSequenceComposition polyLeucine))).sum = 0
    rw [comp_polyLeucine]
    simp only [List.map_cons, List.map_nil, lK, lR, lH, lD, lE, List.sum_cons,
      List.sum_nil]
    norm_num
  · rw [hcompo]
    rfl
  · rw [hcompo]
    rfl
  · rw [hcompo]
    rfl
  · show (cleanSequence polyLeucine).length = 10
    rw [hcl, hlen]

theorem comp_agSeq : getSequenceComposition agSeq =
    [('A', (20 : ℚ) / 40 * 100), ('G', (20 : ℚ) / 40 * 100)] := by
  have hclean : (cleanSequence agSeq).map Char.toUpper = agSeq := by decide
  have hded : firstDedup agSeq = ['A', 'G'] := by decide
  have hcA : agSeq.count 'A' = 20 := by decide
  have hcG : agSeq.count 'G' = 20 := by decide
  have hlen : agSeq.length = 40 := by decide
  simp [getSequenceComposition, hclean, hded, hcA, hcG, hlen]

theorem stats_agSeq_parts :
    (getSequenceStats agSeq).hydrophobicity = 50 ∧
      (getSequenceStats agSeq).netCharge = 0 ∧
      compGt (getSequenceStats agSeq).composition 'H' 2 = false ∧
      compGt (getSequenceStats agSeq).composition 'P' 5 = false ∧
      compGt (getSequenceStats agSeq).composition 'C' 3 = false ∧
      (getSequenceStats agSeq).length = 40 := by
  have hcl : cleanSequence agSeq = agSeq := by decide
  have hcnt : (agSeq.filter fun c => decide (c ∈ hydrophobicResidues)).length = 20 := by
    decide
  have hlen : agSeq.length = 40 := by decide
  have hcompo : (getSequenceStats agSeq).composition =
      [('A', (20 : ℚ) / 40 * 100), ('G', (20 : ℚ) / 40 * 100)] := by
    rw [show (getSequenceStats agSeq).composition =
      getSequenceComposition agSeq from rfl, comp_agSeq]
  have lK : compLookup [('A', (20 : ℚ) / 40 * 100), ('G', (20 : ℚ) / 40 * 100)] 'K' = 0 := rfl
  have lR : compLookup [('A', (20 : ℚ) / 40 * 100), ('G', (20 : ℚ) / 40 * 100)] 'R' = 0 := rfl
  have lH : compLookup [('A', (20 : ℚ) / 40 * 100), ('G', (20 : ℚ) / 40 * 100)] 'H' = 0 := rfl
  have lD : compLookup [('A', (20 : ℚ) / 40 * 100), ('G', (20 : ℚ) / 40 * 100)] 'D' = 0 := rfl
  have lE : compLookup [('A', (20 : ℚ) / 40 * 100), ('G', (20 : ℚ) / 40 * 100)] 'E' = 0 := rfl
  refine ⟨?_, ?_, ?_, ?_, ?_, ?_⟩
  · show ((cleanSequence agSeq).filter fun c =>
        decide (c ∈ hydrophobicResidues)).length / ((cleanSequence agSeq).length : ℚ)
        * 100 = 50
    rw [hcl, hcnt, hlen]
    norm_num
  · show (['K', 'R', 'H'].map (compLookup (getSequenceComposition agSeq))).sum -
        (['D', 'E'].map (compLookup (getSequenceComposition agSeq))).sum = 0
    rw [comp_agSeq]
    simp only [List.map_cons, List.map_nil, lK, lR, lH, lD, lE, List.sum_cons,
      List.sum_nil]
    norm_num
  · rw [hcompo]
    rfl
  · rw [hcompo]
    rfl
  · rw [hcompo]
    rfl
  · show (cleanSequence agSeq).length = 40
    rw [hcl, hlen]

/-! ### Theorems for claims C2 and C3 -/

/-- C2 counterexample: classifying the all-leucine sequence (hydrophobicity 100,
no embedding features) puts a Transporter Activity entry with confidence 1.025
into `primaryFunctions`, so confidences are not always within [0, 1]. -/
theorem transporter_confidence_exceeds_one :
    transporterActivity 1.025 false ∈
        (classifyProteinWithEmbeddings polyLeucine (getSequenceStats polyLeucine)
          "L10" none).primaryFunctions ∧
      (1 : ℚ) < 1.025 := by
  obtain ⟨h100, hnet, hH, hP, hC, hlen⟩ := stats_polyLeucine_parts
  have hcls := classify_hydro_only polyLeucine (getSequenceStats polyLeucine) "L10"
    (by rw [h100]; norm_num) (by rw [hnet]; norm_num) hH hP hC (by rw [hlen]; norm_num)
  have hval : (0.75 : ℚ) + ((getSequenceStats polyLeucine).hydrophobicity - 45) * 0.005 =
      1.025 := by
    rw [h100]
    norm_num
  rw [hcls.1, hval]
  exact ⟨List.mem_cons_self _ _, by norm_num⟩

/-- C2 amended: for statistics with hydrophobicity ≤ 100 and nonnegative
embedding complexity, every confidence in either output list lies in
[0, 1.025], and every entry other than Transporter Activity lies in [0, 1].
(The unboosted Transporter Activity confidence exceeds 1 for hydrophobicity
above 95, as the counterexample shows.) -/
theorem confidence_bounds (seq : List Char) (stats : CompositionStats) (sid : String)
    (ef : Option (EmbeddingFeatures ℚ)) (hb : stats.hydrophobicity ≤ 100)
    (hcx : ∀ f, ef = some f → 0 ≤ f.complexity) :
    ∀ cat, (cat ∈ (classifyProteinWithEmbeddings seq stats sid ef).primaryFunctions ∨
        cat ∈ (classifyProteinWithEmbeddings seq stats sid ef).secondaryFunctions) →
      0 ≤ cat.confidence ∧ cat.confidence ≤ 1.025 ∧
        (cat.id ≠ "GO:0005215" → cat.confidence ≤ 1) := by
  intro cat hcat
  have hperm := List.perm_insertionSort confDesc
    (primaryCandidates stats ef ++ secondaryCandidates stats)
  have hsub : (rankedTop8 stats ef).Sublist (List.insertionSort confDesc
      (primaryCandidates stats ef ++ secondaryCandidates stats)) :=
    List.take_sublist _ _
  have hmem : cat ∈ primaryCandidates stats ef ∨ cat ∈ secondaryCandidates stats := by
    obtain ⟨hp1, hs1⟩ := output_lists seq stats sid ef
    rcases hcat with h | h
    · rw [hp1] at h
      exact List.mem_append.mp (hperm.mem_iff.mp (hsub.mem (List.mem_of_mem_filter h)))
    · rw [hs1] at h
      exact List.mem_append.mp (hperm.mem_iff.mp (hsub.mem (List.mem_of_mem_filter h)))
  rcases hmem with h | h
  · rcases mem_primaryCandidates.mp h with
      ⟨hcond, rfl⟩ | ⟨_, rfl | rfl⟩ | ⟨_, rfl⟩ | ⟨_, rfl⟩ | rfl
    · have hbase0 : (0 : ℚ) ≤ 0.75 + (stats.hydrophobicity - 45) * 0.005 := by linarith
      have hbase1 : (0.75 : ℚ) + (stats.hydrophobicity - 45) * 0.005 ≤ 1.025 := by linarith
      refine ⟨?_, ?_, fun hid => absurd rfl hid⟩
      · show (0 : ℚ) ≤ hydroConfidence stats ef
        cases ef with
        | none => simpa [hydroConfidence] using hbase0
        | some f =>
          simp only [hydroConfidence]
          split_ifs
          · exact le_min (by linarith) (by norm_num)
          · exact hbase0
      · show hydroConfidence stats ef ≤ 1.025
        cases ef with
        | none => simpa [hydroConfidence] using hbase1
        | some f =>
          simp only [hydroConfidence]
          split_ifs
          · exact le_trans (min_le_right _ _) (by norm_num)
          · exact hbase1
    · have hc0 : (0 : ℚ) ≤ efComplexity ef := by
        cases ef with
        | none => simp [efComplexity]
        | some f => simpa [efComplexity] using hcx f rfl
      have hmul : (0 : ℚ) ≤ efComplexity ef * 0.15 := mul_nonneg hc0 (by norm_num)
      refine ⟨?_, ?_, fun _ => ?_⟩
      · exact le_min (by linarith) (by norm_num)
      · exact le_trans (min_le_right _ _) (by norm_num)
      · exact le_trans (min_le_right _ _) (by norm_num)
    · exact ⟨by norm_num [rnaBinding], by norm_num [rnaBinding],
        fun _ => by norm_num [rnaBinding]⟩
    · exact ⟨by norm_num [transferaseActivity], by norm_num [transferaseActivity],
        fun _ => by norm_num [transferaseActivity]⟩
    · exact ⟨by norm_num [metabolicProcess], by norm_num [metabolicProcess],
        fun _ => by norm_num [metabolicProcess]⟩
    · exact ⟨by norm_num [intracellularComponent], by norm_num [intracellularComponent],
        fun _ => by norm_num [intracellularComponent]⟩
  · rcases mem_secondaryCandidates.mp h with ⟨_, rfl⟩ | ⟨_, rfl⟩ | ⟨_, rfl | rfl⟩
    · exact ⟨by norm_num [intrinsicMembraneComponent],
        by norm_num [intrinsicMembraneComponent],
        fun _ => by norm_num [intrinsicMembraneComponent]⟩
    · exact ⟨by norm_num [signalTransducerActivity],
        by norm_num [signalTransducerActivity],
        fun _ => by norm_num [signalTransducerActivity]⟩
    · exact ⟨by norm_num [disulfideOxidoreductase],
        by norm_num [disulfideOxidoreductase],
        fun _ => by norm_num [disulfideOxidoreductase]⟩
    · exact ⟨by norm_num [structuralProteinActivity],
        by norm_num [structuralProteinActivity],
        fun _ => by norm_num [structuralProteinActivity]⟩

theorem primary_zeroStats :
    (classifyProteinWithEmbeddings [] zeroStats "" none).primaryFunctions =
      [intracellularComponent] := by
  rw [(output_lists [] zeroStats "" none).1, rankedTop8_zeroStats]
  have hmem : intracellularComponent ∈ primaryCandidates zeroStats none :=
    mem_primaryCandidates.mpr (Or.inr (Or.inr (Or.inr (Or.inr rfl))))
  simp [List.filter_cons, hmem]

/-- Witness for C2 at a concrete input: the Intracellular Component entry of the
trivial statistics record has its confidence within the proved bounds. -/
theorem confidence_bounds_witness :
    zeroStats.hydrophobicity ≤ 100 ∧
      0 ≤ intracellularComponent.confidence ∧
      intracellularComponent.confidence ≤ 1.025 ∧
      (intracellularComponent.id ≠ "GO:0005215" → intracellularComponent.confidence ≤ 1) := by
  have h100 : zeroStats.hydrophobicity ≤ 100 := by norm_num [zeroStats]
  have hmem : intracellularComponent ∈
      (classifyProteinWithEmbeddings [] zeroStats "" none).primaryFunctions := by
    rw [primary_zeroStats]
    exact List.mem_cons_self _ _
  have h := confidence_bounds [] zeroStats "" none h100 (fun f hf => nomatch hf)
    intracellularComponent (Or.inl hmem)
  exact ⟨h100, h.1, h.2.1, h.2.2⟩

/-- C3 counterexample: for the alternating `AG` sequence of length 40 the
hydrophobicity is 50, which exceeds the 45 threshold, so the hydrophobicity
rule fires and `primaryFunctions` contains a Transporter Activity entry — it is
not the case that only the Intracellular Component entry appears. -/
theorem ag_triggers_hydrophobicity :
    (getSequenceStats agSeq).hydrophobicity = 50 ∧
      transporterActivity 0.775 false ∈
        (classifyProteinWithEmbeddings agSeq (getSequenceStats agSeq)
          "AG40" none).primaryFunctions ∧
      (classifyProteinWithEmbeddings agSeq (getSequenceStats agSeq)
          "AG40" none).primaryFunctions ≠ [intracellularComponent] := by
  obtain ⟨h50, hnet, hH, hP, hC, hlen⟩ := stats_agSeq_parts
  have hcls := classify_hydro_only agSeq (getSequenceStats agSeq) "AG40"
    (by rw [h50]; norm_num) (by rw [hnet]; norm_num) hH hP hC (by rw [hlen]; norm_num)
  have hval : (0.75 : ℚ) + ((getSequenceStats agSeq).hydrophobicity - 45) * 0.005 =
      0.775 := by
    rw [h50]
    norm_num
  rw [hcls.1, hval]
  refine ⟨h50, List.mem_cons_self _ _, ?_⟩
  intro h
  have := congrArg List.length h
  simp at this

/-- C3 amended: for the alternating `AG` sequence of length 40 (no embedding
features) the charge rules do not fire (net charge 0) and no Metabolic Process
entry is added (length 40 ≤ 300), but the hydrophobicity rule DOES fire
(hydrophobicity = 50 > 45): the primary list is [Transporter Activity (0.775),
Intracellular Component (0.5)] and the secondary list is
[Intrinsic Membrane Component (0.68)]. -/
theorem ag_classification :
    (classifyProteinWithEmbeddings agSeq (getSequenceStats agSeq)
        "AG40" none).primaryFunctions =
      [transporterActivity 0.775 false, intracellularComponent] ∧
      (classifyProteinWithEmbeddings agSeq (getSequenceStats agSeq)
          "AG40" none).secondaryFunctions = [intrinsicMembraneComponent] ∧
      (getSequenceStats agSeq).netCharge = 0 ∧
      (getSequenceStats agSeq).hydrophobicity = 50 ∧
      metabolicProcess ∉
        (classifyProteinWithEmbeddings agSeq (getSequenceStats agSeq)
          "AG40" none).primaryFunctions := by
  obtain ⟨h50, hnet, hH, hP, hC, hlen⟩ := stats_agSeq_parts
  have hcls := classify_hydro_only agSeq (getSequenceStats agSeq) "AG40"
    (by rw [h50]; norm_num) (by rw [hnet]; norm_num) hH hP hC (by rw [hlen]; norm_num)
  have hval : (0.75 : ℚ) + ((getSequenceStats agSeq).hydrophobicity - 45) * 0.005 =
      0.775 := by
    rw [h50]
    norm_num
  have hprim : (classifyProteinWithEmbeddings agSeq (getSequenceStats agSeq)
      "AG40" none).primaryFunctions =
      [transporterActivity 0.775 false, intracellularComponent] := by
    rw [hcls.1, hval]
  have neMetT : metabolicProcess ≠ transporterActivity 0.775 false :=
    fun h => absurd (congrArg FunctionalCategory.id h) (by decide)
  have neMetIc : metabolicProcess ≠ intracellularComponent :=
    fun h => absurd (congrArg FunctionalCategory.id h) (by decide)
  refine ⟨hprim, hcls.2, hnet, h50, ?_⟩
  rw [hprim]
  simp [neMetT, neMetIc]

/-! ### Composition-sum lemmas for claim C4 -/

theorem mem_firstDedup (c : Char) (l : List Char) : c ∈ firstDedup l ↔ c ∈ l := by
  induction l with
  | nil => simp [firstDedup]
  | cons a t ih =>
    simp only [firstDedup, List.mem_cons, List.mem_filter, decide_eq_true_eq]
    constructor
    · rintro (rfl | ⟨h1, _⟩)
      · exact Or.inl rfl
      · exact Or.inr (ih.mp h1)
    · rintro (rfl | h)
      · exact Or.inl rfl
      · by_cases hca : c = a
        · exact Or.inl hca
        · exact Or.inr ⟨ih.mpr h, hca⟩

theorem nodup_firstDedup (l : List Char) : (firstDedup l).Nodup := by
  induction l with
  | nil => simp [firstDedup]
  | cons a t ih =>
    simp only [firstDedup]
    rw [List.nodup_cons]
    refine ⟨?_, List.Nodup.filter _ ih⟩
    intro hmem
    have h := (List.mem_filter.mp hmem).2
    simp at h

theorem toFinset_firstDedup (l : List Char) : (firstDedup l).toFinset = l.toFinset := by
  ext c
  simp [List.mem_toFinset, mem_firstDedup]

theorem toUpper_fixed_on_valid : ∀ c ∈ validAminoChars, c.toUpper = c := by decide

theorem valid_not_stripped :
    ∀ c ∈ validAminoChars, decide (c ∈ jsWhitespace) = false ∧ c.isDigit = false ∧
      decide (c = '\n' ∨ c = '\r') = false ∧ c ≠ '>' := by decide

theorem map_toUpper_valid {s : List Char} (hv : ∀ c ∈ s, c ∈ validAminoChars) :
    s.map Char.toUpper = s := by
  induction s with
  | nil => rfl
  | cons a t ih =>
    have ha := toUpper_fixed_on_valid a (hv a (List.mem_cons_self a t))
    have ht := ih fun c hc => hv c (List.mem_cons_of_mem a hc)
    simp [ha, ht]

theorem upperStripped_valid {s : List Char} (hv : ∀ c ∈ s, c ∈ validAminoChars) :
    upperStripped s = s := by
  unfold upperStripped
  rw [map_toUpper_valid hv]
  have e1 : (s.filter fun c => !decide (c ∈ jsWhitespace)) = s :=
    List.filter_eq_self.mpr fun a ha => by
      simp [(valid_not_stripped a (hv a ha)).1]
  rw [e1]
  have e2 : (s.filter fun c => !c.isDigit) = s :=
    List.filter_eq_self.mpr fun a ha => by
      simp [(valid_not_stripped a (hv a ha)).2.1]
  rw [e2]
  exact List.filter_eq_self.mpr fun a ha => by
    simp [(valid_not_stripped a (hv a ha)).2.2.1]

theorem matchesFastaHeader_valid {s : List Char} (hv : ∀ c ∈ s, c ∈ validAminoChars) :
    matchesFastaHeader s = false := by
  unfold matchesFastaHeader
  rw [upperStripped_valid hv]
  cases s with
  | nil => rfl
  | cons a t =>
    have ha : a ≠ '>' :=
      (valid_not_stripped a (hv a (List.mem_cons_self a t))).2.2.2
    split
    · next x heq =>
        injection heq with h1 _
        exact absurd h1 ha
    · rfl

theorem cleanSequence_valid {s : List Char} (hv : ∀ c ∈ s, c ∈ validAminoChars) :
    cleanSequence s = s := by
  unfold cleanSequence
  rw [matchesFastaHeader_valid hv]
  simp

theorem composition_values_sum {s : List Char} (hne : s ≠ [])
    (hv : ∀ c ∈ s, c ∈ validAminoChars) :
    ((getSequenceComposition s).map Prod.snd).sum = 100 := by
  have hcl : cleanSequence s = s := cleanSequence_valid hv
  have hup : s.map Char.toUpper = s := map_toUpper_valid hv
  have hlen0 : (s.length : ℚ) ≠ 0 :=
    Nat.cast_ne_zero.mpr (Nat.pos_iff_ne_zero.mp (List.length_pos.mpr hne))
  have hgc : getSequenceComposition s =
      (firstDedup s).map fun c => (c, (s.count c : ℚ) / s.length * 100) := by
    simp only [getSequenceComposition, hcl, hup]
  rw [hgc, List.map_map]
  have hcomp : (Prod.snd ∘ fun c => (c, (s.count c : ℚ) / s.length * 100)) =
      fun c => (s.count c : ℚ) / s.length * 100 := rfl
  rw [hcomp]
  rw [← List.sum_toFinset _ (nodup_firstDedup s), toFinset_firstDedup]
  have hcount : ∑ c in s.toFinset, (s.count c : ℚ) = (s.length : ℚ) := by
    rw [← Nat.cast_sum]
    norm_cast
    have h1 := Multiset.toFinset_sum_count_eq (s : Multiset Char)
    simp only [Multiset.coe_count] at h1
    simp only [Multiset.coe_card] at h1
    exact h1
  rw [← Finset.sum_mul, ← Finset.sum_div, hcount, div_self hlen0, one_mul]

/-! ### Theorem for claim C4 -/

/-- C4: for every non-empty sequence over the allowed alphabet the composition
percentages sum to exactly 100, hence in particular to 100 within
1e-9 × length. -/
theorem composition_sums_to_100 (s : List Char) (hne : s ≠ [])
    (hv : ∀ c ∈ s, c ∈ validAminoChars) :
    |((getSequenceComposition s).map Prod.snd).sum - 100| ≤
      (1 / 1000000000 : ℚ) * s.length := by
  rw [composition_values_sum hne hv]
  simp

/-- Witness for C4 at a concrete input. -/
theorem composition_sums_to_100_witness :
    (['M', 'K'] : List Char) ≠ [] ∧
      (∀ c ∈ (['M', 'K'] : List Char), c ∈ validAminoChars) ∧
      |((getSequenceComposition ['M', 'K']).map Prod.snd).sum - 100| ≤
        (1 / 1000000000 : ℚ) * (['M', 'K'] : List Char).length :=
  ⟨by decide, by decide, composition_sums_to_100 ['M', 'K'] (by decide) (by decide)⟩

/-! ### Theorem for claim C5 -/

/-- C5: for a vector of length N ≥ 10, `regions` has exactly 10 entries; for
i ≤ 8 the i-th entry is the arithmetic mean of the slice of `⌊N/10⌋` elements
starting at `i × ⌊N/10⌋`, and the 10th entry is the mean of the remaining
elements through the end of the vector, whose count is at least `⌊N/10⌋`. -/
theorem extract_regions (v : List ℝ) (h : 10 ≤ v.length) :
    (extractEmbeddingFeatures v).regions.length = 10 ∧
      (∀ i, i < 9 →
        (extractEmbeddingFeatures v).regions.getD i 0 =
          ((v.drop (i * (v.length / 10))).take (v.length / 10)).sum /
            ((v.length / 10 : ℕ) : ℝ)) ∧
      (extractEmbeddingFeatures v).regions.getD 9 0 =
        (v.drop (9 * (v.length / 10))).sum /
          (((v.drop (9 * (v.length / 10))).length : ℕ) : ℝ) ∧
      v.length / 10 ≤ (v.drop (9 * (v.length / 10))).length := by
  have hk : 10 * (v.length / 10) ≤ v.length := by
    have := Nat.div_mul_le_self v.length 10
    omega
  have hreg : (extractEmbeddingFeatures v).regions =
      (List.range 10).map (fun i =>
        (((v.drop (i * (v.length / 10))).take
            ((if i = 9 then v.length else (i + 1) * (v.length / 10)) -
              i * (v.length / 10))).sum) /
          ((((v.drop (i * (v.length / 10))).take
            ((if i = 9 then v.length else (i + 1) * (v.length / 10)) -
              i * (v.length / 10))).length : ℕ) : ℝ)) := rfl
  refine ⟨?_, ?_, ?_, ?_⟩
  · rw [hreg]
    simp
  · intro i hi
    have hilt : i < 10 := by omega
    rw [hreg, List.getD_eq_getElem _ _ (by simpa using hilt), List.getElem_map,
      List.getElem_range]
    have h9 : i ≠ 9 := by omega
    simp only [h9, if_false]
    have hsub : (i + 1) * (v.length / 10) - i * (v.length / 10) = v.length / 10 := by
      rw [Nat.succ_mul]
      omega
    rw [hsub]
    have hlen : ((v.drop (i * (v.length / 10))).take (v.length / 10)).length =
        v.length / 10 := by
      rw [List.length_take, List.length_drop]
      have h1 : (i + 1) * (v.length / 10) ≤ 10 * (v.length / 10) :=
        Nat.mul_le_mul_right _ (by omega)
      rw [Nat.succ_mul] at h1
      omega
    rw [hlen]
  · rw [hreg, List.getD_eq_getElem _ _ (by simp), List.getElem_map, List.getElem_range]
    have h99 : (if 9 = 9 then v.length else (9 + 1) * (v.length / 10)) = v.length :=
      if_pos rfl
    rw [h99]
    have htake : (v.drop (9 * (v.length / 10))).take
        (v.length - 9 * (v.length / 10)) = v.drop (9 * (v.length / 10)) := by
      apply List.take_of_length_le
      rw [List.length_drop]
    rw [htake]
  · rw [List.length_drop]
    omega

/-- Witness for C5 at a concrete vector of length 10. -/
theorem extract_regions_witness :
    10 ≤ (List.replicate 10 (1 : ℝ)).length ∧
      (extractEmbeddingFeatures (List.replicate 10 (1 : ℝ))).regions.length = 10 := by
  have h : 10 ≤ (List.replicate 10 (1 : ℝ)).length := by simp
  exact ⟨h, (extract_regions (List.replicate 10 (1 : ℝ)) h).1⟩

/-! ### Theorem for claim C7 -/

/-- C7: `cosineSimilarity` fails with the length-mismatch error exactly when
the two vectors differ in length; on equal-length vectors it returns the dot
product divided by the product of the Euclidean norms, except that it returns
0 when that product is 0. -/
theorem cosineSimilarity_spec (a b : List ℝ) :
    ((cosineSimilarity a b = Except.error "Embeddings must have same length") ↔
        a.length ≠ b.length) ∧
      (a.length = b.length →
        cosineSimilarity a b = Except.ok
          (if euclideanNorm a = 0 ∨ euclideanNorm b = 0 then 0
           else dotProductOf a b / (euclideanNorm a * euclideanNorm b))) := by
  constructor
  · constructor
    · intro h
      by_contra hne
      unfold cosineSimilarity at h
      rw [if_neg fun hc => hc hne] at h
      dsimp only at h
      split at h <;> exact Except.noConfusion h
    · intro hne
      unfold cosineSimilarity
      rw [if_pos hne]
  · intro heq
    unfold cosineSimilarity
    rw [if_neg fun hc => hc heq]
    have hden : Real.sqrt ((a.map fun x => x * x).sum) *
        Real.sqrt ((b.map fun x => x * x).sum) = 0 ↔
        euclideanNorm a = 0 ∨ euclideanNorm b = 0 := by
      rw [mul_eq_zero]
      exact Iff.rfl
    by_cases hz : euclideanNorm a = 0 ∨ euclideanNorm b = 0
    · rw [if_pos (hden.mpr hz), if_pos hz]
    · rw [if_neg fun hc => hz (hden.mp hc), if_neg hz]
      rfl

/-- Witness for C7 at concrete inputs: mismatched lengths yield the error, and
the cosine similarity of the unit vector `[1]` with itself is 1. -/
theorem cosineSimilarity_spec_witness :
    cosineSimilarity [1] [1, 1] = Except.error "Embeddings must have same length" ∧
      cosineSimilarity [1] [1] = Except.ok 1 := by
  refine ⟨(cosineSimilarity_spec [1] [1, 1]).1.mpr (by simp), ?_⟩
  have h2 := (cosineSimilarity_spec [1] [1]).2 rfl
  rw [h2]
  have hn : euclideanNorm [(1 : ℝ)] = 1 := by
    simp [euclideanNorm]
  rw [hn]
  rw [if_neg (by norm_num)]
  norm_num [dotProductOf]

end PlantAnalyzer
